import Mathlib

/-!
Verification of the audit-checks repository: a shallow embedding of the
data model (pkg/exithandler models), the severity policy, the vulnerability
filter (pkg/auditor), the combined-report aggregation, the Telegram topic
directory (pkg/notifier/telegram.go), and the orchestration skeleton
(Application.Run / auditApp / runSingleAudit, pkg/cli RunAudit).
Go integers are modelled as Lean Int; overflow is immaterial to the
properties stated here. Stateful Go code (the Telegram notifier and its
external bot API) is modelled by explicit state passing over a world record
whose fields are the behaviour of the external Telegram service.
-/

/-! ## Severity policy (models package) -/

def SeverityCritical : String := "critical"

def SeverityHigh : String := "high"

def SeverityModerate : String := "moderate"

def SeverityLow : String := "low"

def SeverityInfo : String := "info"

/-- Go map `SeverityOrder` with the zero value for absent keys:
a lookup of any string that is not a key yields 0. -/
def SeverityOrder (s : String) : Nat :=
  if s = SeverityCritical then 4
  else if s = SeverityHigh then 3
  else if s = SeverityModerate then 2
  else if s = SeverityLow then 1
  else if s = SeverityInfo then 0
  else 0

/-- `MeetsSeverityThreshold` from the models package. -/
def MeetsSeverityThreshold (severity threshold : String) : Bool :=
  SeverityOrder severity ≥ SeverityOrder threshold

/-! ## Vulnerability and audit-result model (models package) -/

structure Vulnerability where
  packageName : String
  severity : String
  cveID : String
  title : String
deriving DecidableEq, Repr

structure AuditResult where
  appName : String
  appPath : String
  auditorType : String
  totalVulnerabilities : Int
  criticalCount : Int
  highCount : Int
  moderateCount : Int
  lowCount : Int
  vulnerabilities : List Vulnerability
deriving DecidableEq, Repr

/-- `AuditResult.UpdateCounts`: zero the four buckets, set the total to the
list length, then walk the vulnerability list once, incrementing the bucket
named by each severity (the switch counts only the four named severities;
anything else, including info, is counted in no bucket but still in the
total). -/
def AuditResult.UpdateCounts (a : AuditResult) : AuditResult :=
  a.vulnerabilities.foldl
    (fun acc v =>
      if v.severity = SeverityCritical then { acc with criticalCount := acc.criticalCount + 1 }
      else if v.severity = SeverityHigh then { acc with highCount := acc.highCount + 1 }
      else if v.severity = SeverityModerate then { acc with moderateCount := acc.moderateCount + 1 }
      else if v.severity = SeverityLow then { acc with lowCount := acc.lowCount + 1 }
      else acc)
    { a with
      criticalCount := 0
      highCount := 0
      moderateCount := 0
      lowCount := 0
      totalVulnerabilities := (a.vulnerabilities.length : Int) }

/-- `AuditResult.HasVulnerabilities`. -/
def AuditResult.HasVulnerabilities (a : AuditResult) : Bool :=
  a.totalVulnerabilities > 0

structure Summary where
  total : Int
  critical : Int
  high : Int
  moderate : Int
  low : Int
deriving DecidableEq, Repr

structure Report where
  appName : String
  appPath : String
  auditorType : String
  auditResult : AuditResult
  vulnerabilities : List Vulnerability
deriving DecidableEq, Repr

/-- `NewReport` (the GeneratedAt timestamp and AI analysis are dropped:
no claim mentions them). -/
def NewReport (result : AuditResult) : Report :=
  { appName := result.appName
    appPath := result.appPath
    auditorType := result.auditorType
    auditResult := result
    vulnerabilities := result.vulnerabilities }

/-- `Report.GetSummary`: reads the stored counts of the audit result. -/
def Report.GetSummary (r : Report) : Summary :=
  { total := r.auditResult.totalVulnerabilities
    critical := r.auditResult.criticalCount
    high := r.auditResult.highCount
    moderate := r.auditResult.moderateCount
    low := r.auditResult.lowCount }

structure CombinedAppReport where
  appName : String
  appPath : String
  reports : List Report
  reportFiles : List String
deriving DecidableEq, Repr

/-- `NewCombinedAppReport`. -/
def NewCombinedAppReport (appName appPath : String) : CombinedAppReport :=
  { appName := appName, appPath := appPath, reports := [], reportFiles := [] }

/-- `CombinedAppReport.AddReport`. -/
def CombinedAppReport.AddReport (c : CombinedAppReport) (report : Report)
    (filePaths : List String) : CombinedAppReport :=
  { c with
    reports := c.reports ++ [report]
    reportFiles := c.reportFiles ++ filePaths }

/-- `CombinedAppReport.GetCombinedSummary`: starts from the zero summary and
adds each constituent report's `GetSummary` fields in order. -/
def CombinedAppReport.GetCombinedSummary (c : CombinedAppReport) : Summary :=
  c.reports.foldl
    (fun summary r =>
      let s := r.GetSummary
      { total := summary.total + s.total
        critical := summary.critical + s.critical
        high := summary.high + s.high
        moderate := summary.moderate + s.moderate
        low := summary.low + s.low })
    { total := 0, critical := 0, high := 0, moderate := 0, low := 0 }

/-- `CombinedAppReport.HasVulnerabilities`: true iff some constituent report
has a positive stored total. -/
def CombinedAppReport.HasVulnerabilities (c : CombinedAppReport) : Bool :=
  c.reports.any (fun r => r.auditResult.HasVulnerabilities)

/-! ## Vulnerability filtering (pkg/auditor/auditor.go) -/

/-- `FilterVulnerabilities`: keep exactly the vulnerabilities whose severity
meets the threshold, in order. -/
def FilterVulnerabilities (vulns : List Vulnerability) (threshold : String) :
    List Vulnerability :=
  match vulns with
  | [] => []
  | v :: rest =>
    if MeetsSeverityThreshold v.severity threshold then
      v :: FilterVulnerabilities rest threshold
    else
      FilterVulnerabilities rest threshold

/-- ASCII lower-casing, character by character (Go strings.ToLower restricted
to the ASCII labels scanners emit), written over the character list so it is
kernel-reducible on literals. -/
def toLowerString (s : String) : String :=
  String.mk (s.data.map Char.toLower)

/-- `normalizeSeverity` (pkg/auditor/npm.go): lower-cases the scanner label
and maps the five recognized spellings; everything else becomes info. -/
def normalizeSeverity (severity : String) : String :=
  if toLowerString severity = "critical" then SeverityCritical
  else if toLowerString severity = "high" then SeverityHigh
  else if toLowerString severity = "moderate" ∨ toLowerString severity = "medium" then SeverityModerate
  else if toLowerString severity = "low" then SeverityLow
  else SeverityInfo

/-! ## Top-N vulnerability selection (TelegramNotifier.collectTopVulnerabilities)

The Go code runs an in-place exchange sort over the concatenated slice:

  for i := 0; i < len-1; i++
    for j := i+1; j < len; j++
      if SeverityOrder[a[j].Severity] > SeverityOrder[a[i].Severity] { swap a[i], a[j] }

The inner loop for a fixed i threads the element currently at position i (the
pivot) through the tail: whenever a strictly more severe element is met at j,
the two trade places, so from then on the new element is the pivot and the old
pivot sits at position j. `selOne p l` is exactly that inner loop: it returns
the pivot left at position i after the scan together with the tail positions
i+1.. as the scan leaves them. `sevSort` is the outer loop. -/

def selOne (p : Vulnerability) : List Vulnerability → Vulnerability × List Vulnerability
  | [] => (p, [])
  | x :: xs =>
    if SeverityOrder x.severity > SeverityOrder p.severity then
      ((selOne x xs).1, p :: (selOne x xs).2)
    else
      ((selOne p xs).1, x :: (selOne p xs).2)

/-- The outer loop of the exchange sort in `collectTopVulnerabilities`. The
fuel argument counts the remaining outer-loop iterations; the inner loop
preserves the number of elements, so running with fuel = length is exactly
the Go loop (and keeps the function kernel-reducible on concrete inputs). -/
def sevSortGo : Nat → List Vulnerability → List Vulnerability
  | 0, _ => []
  | _ + 1, [] => []
  | fuel + 1, x :: xs => (selOne x xs).1 :: sevSortGo fuel (selOne x xs).2

def sevSort (l : List Vulnerability) : List Vulnerability :=
  sevSortGo l.length l

/-- `TelegramNotifier.collectTopVulnerabilities`: concatenate the constituent
reports' vulnerability lists in order, run the exchange sort, and keep the
first `limit` entries when there are more than `limit`. -/
def collectTopVulnerabilities (combinedReport : CombinedAppReport) (limit : Nat) :
    List Vulnerability :=
  let allVulns :=
    combinedReport.reports.foldl (fun acc r => acc ++ r.vulnerabilities) []
  let sorted := sevSort allVulns
  if sorted.length > limit then sorted.take limit else sorted

/-! ## Telegram topic directory (pkg/notifier/telegram.go)

The notifier talks to the external Telegram bot API. That API is modelled as
a world record: `deliverTo` gives, for each requested message-thread id, the
thread id the delivery receipt reports (a deleted topic makes Telegram
deliver to General, reported as a different thread); `sendFails` tells which
requested thread ids make a send error out (after the plain-text fallback);
`createFails` tells whether CreateForumTopic errors; `nextId` is the thread
id Telegram will assign to the next created topic (Telegram assigns fresh,
strictly increasing ids). Sends are logged as (requested thread id, report):
the message text sent is built from the combined report once per call, so the
report stands for the message content. -/

structure TgWorld where
  deliverTo : Int → Int
  sendFails : Int → Bool
  createFails : Bool
  nextId : Int
  sends : List (Int × CombinedAppReport)

/-- In-memory topic cache (Go map appName → topic id): lookup. -/
def cacheFind (c : List (String × Int)) (k : String) : Option Int :=
  match c with
  | [] => none
  | (k2, v) :: rest => if k2 = k then some v else cacheFind rest k

/-- Go map assignment: the new binding shadows (replaces) any old one. -/
def cacheSet (c : List (String × Int)) (k : String) (v : Int) : List (String × Int) :=
  (k, v) :: c.filter (fun e => e.1 ≠ k)

/-- Go map delete. -/
def cacheDelete (c : List (String × Int)) (k : String) : List (String × Int) :=
  c.filter (fun e => e.1 ≠ k)

/-- The notifier state the claims touch: the enabled flag (the bot handle is
non-nil exactly when enabled) and the process-lifetime topic cache. -/
structure TelegramNotifier where
  enabled : Bool
  topicCache : List (String × Int)

/-- `TelegramNotifier.createForumTopic`: asks the API to create a topic and
validates that the response carries a positive message_thread_id. -/
def createForumTopic (w : TgWorld) : Except String (Int × TgWorld) :=
  if w.createFails then Except.error "failed to create forum topic"
  else if w.nextId ≤ 0 then Except.error "invalid message_thread_id in response"
  else Except.ok (w.nextId, { w with nextId := w.nextId + 1 })

/-- `TelegramNotifier.invalidateTopicCache`. -/
def invalidateTopicCache (n : TelegramNotifier) (appName : String) : TelegramNotifier :=
  { n with topicCache := cacheDelete n.topicCache appName }

/-- `TelegramNotifier.getOrCreateTopic`: a persisted positive id is trusted
and cached; otherwise the cache is consulted; otherwise a topic is created
and cached (the double-checked locking collapses in this sequential model). -/
def getOrCreateTopic (n : TelegramNotifier) (w : TgWorld) (appName : String)
    (existingTopicID : Int) : Except String (Int × TelegramNotifier × TgWorld) :=
  if existingTopicID > 0 then
    Except.ok (existingTopicID,
      { n with topicCache := cacheSet n.topicCache appName existingTopicID }, w)
  else
    match cacheFind n.topicCache appName with
    | some topicID => Except.ok (topicID, n, w)
    | none =>
      match createForumTopic w with
      | Except.error e => Except.error e
      | Except.ok (topicID, w2) =>
        Except.ok (topicID,
          { n with topicCache := cacheSet n.topicCache appName topicID }, w2)

/-- `TelegramNotifier.sendMessageWithAttachments`: sends the combined message
(built from `report`) to `topicID` and returns the thread id from the
delivery receipt. Only successful sends are logged. -/
def sendMessageWithAttachments (w : TgWorld) (topicID : Int)
    (report : CombinedAppReport) : Except String (Int × TgWorld) :=
  if w.sendFails topicID then Except.error "failed to send media group"
  else Except.ok (w.deliverTo topicID,
    { w with sends := w.sends ++ [(topicID, report)] })

/-- `TelegramNotifier.SendCombinedToTopic`, Go signature
`(int, error)` plus the threaded state. The recovery branch fires when a
persisted id was supplied and the receipt reports a different thread:
invalidate the cache, create a replacement topic (on failure return id 0 and
no error so the persisted value is cleared), cache it, resend the same
message to it (a resend failure is only logged), and return the new id. -/
def SendCombinedToTopic (n : TelegramNotifier) (w : TgWorld)
    (combinedReport : CombinedAppReport) (appName : String)
    (existingTopicID : Int) : (Int × Option String) × TelegramNotifier × TgWorld :=
  if n.enabled = false then
    ((0, some "telegram notifier is not enabled"), n, w)
  else if appName = "" then
    ((0, some "app name is required for forum topic"), n, w)
  else
    match getOrCreateTopic n w appName existingTopicID with
    | Except.error e => ((0, some ("failed to get/create topic: " ++ e)), n, w)
    | Except.ok (topicID, n1, w1) =>
      match sendMessageWithAttachments w1 topicID combinedReport with
      | Except.error e =>
        ((topicID, some ("failed to send combined message: " ++ e)), n1, w1)
      | Except.ok (sentThreadID, w2) =>
        if existingTopicID > 0 ∧ sentThreadID ≠ topicID then
          let n2 := invalidateTopicCache n1 appName
          match createForumTopic w2 with
          | Except.error _ => ((0, none), n2, w2)
          | Except.ok (newTopicID, w3) =>
            let n3 := { n2 with topicCache := cacheSet n2.topicCache appName newTopicID }
            match sendMessageWithAttachments w3 newTopicID combinedReport with
            | Except.error _ => ((newTopicID, none), n3, w3)
            | Except.ok (_, w4) => ((newTopicID, none), n3, w4)
        else
          ((topicID, none), n1, w2)

/-! ## Orchestration (pkg/application, src/unnamed/part_003)

`Application.runSingleAudit` runs one (project, scanner) job: a retry loop
over `aud.Audit`, then severity filtering and `UpdateCounts`. The scanner is
modelled as an oracle from the attempt number (1-based) to that attempt's
outcome. The retry loop returns the successful result, or the last error when
every attempt failed, together with the list of backoff sleeps performed
(`time.Sleep(attempt × 1s)` recorded as the attempt number in seconds). -/

def retryFrom (audit : Nat → Except String AuditResult) (maxAttempts attempt : Nat) :
    Option AuditResult × Option String × List Nat :=
  if attempt > maxAttempts then (none, none, [])
  else
    match audit attempt with
    | Except.ok result => (some result, none, [])
    | Except.error e =>
      if attempt < maxAttempts then
        let rest := retryFrom audit maxAttempts (attempt + 1)
        (rest.1, rest.2.1, attempt :: rest.2.2)
      else
        (none, some e, [])
termination_by maxAttempts + 1 - attempt

/-- The retry loop of `Application.runSingleAudit`: attempts run from 1. -/
def runSingleAuditRetry (audit : Nat → Except String AuditResult)
    (maxAttempts : Nat) : Option AuditResult × Option String × List Nat :=
  retryFrom audit maxAttempts 1

/-- The post-retry processing in `Application.runSingleAudit`: filter the
vulnerabilities by the severity threshold, then `UpdateCounts`. -/
def processAuditResult (result : AuditResult) (threshold : String) : AuditResult :=
  AuditResult.UpdateCounts
    { result with vulnerabilities := FilterVulnerabilities result.vulnerabilities threshold }

/-- The `Application.hasVulnerabilities` flag after a run: it is set (under
the mutex) whenever a processed result `HasVulnerabilities`. -/
def applicationHasVulnerabilities (results : List AuditResult) (threshold : String) : Bool :=
  (results.map (fun r => processAuditResult r threshold)).any
    (fun r => r.HasVulnerabilities)

/-- `Application.auditApp` for one project: each applicable auditor's
`runSingleAudit` outcome is either a (report, generated file paths) pair or
an error; successes are folded into one combined report, errors are
collected, and then ONE combined notification is dispatched iff the combined
report has vulnerabilities and the run is not in report-only mode. Returns
the combined report, the number of `NotifyAllCombined` dispatches, and the
collected per-auditor errors. -/
def auditApp (reportOnly : Bool) (appName appPath : String)
    (outcomes : List (Except String (Report × List String))) :
    CombinedAppReport × Nat × List String :=
  let combinedReport := outcomes.foldl
    (fun c o =>
      match o with
      | Except.ok (report, filePaths) => c.AddReport report filePaths
      | Except.error _ => c)
    (NewCombinedAppReport appName appPath)
  let errs := outcomes.filterMap
    (fun o => match o with | Except.error e => some e | Except.ok _ => none)
  let dispatches :=
    if combinedReport.HasVulnerabilities && !reportOnly then 1 else 0
  (combinedReport, dispatches, errs)

/-! ## Project selection and run outcome (Application.Run / getAppsToAudit) -/

structure AppConfig where
  name : String
  path : String
  enabled : Bool
deriving DecidableEq, Repr

structure Config where
  targetApp : String
  apps : List AppConfig
deriving DecidableEq, Repr

/-- `Config.GetApp`: the first configured app with the given name; Go returns
(nil, nil) when none matches — never an error. -/
def Config.GetApp (c : Config) (name : String) : Option AppConfig :=
  c.apps.find? (fun a => a.name = name)

/-- `Config.GetEnabledApps`. -/
def Config.GetEnabledApps (c : Config) : List AppConfig :=
  c.apps.filter (fun a => a.enabled)

/-- `Application.getAppsToAudit`: with a target name set, look it up — when
absent an error is logged and nil is returned; otherwise all enabled apps. -/
def getAppsToAudit (cfg : Config) : List AppConfig :=
  if cfg.targetApp ≠ "" then
    match cfg.GetApp cfg.targetApp with
    | none => []
    | some app => [app]
  else
    cfg.GetEnabledApps

/-- The selection-and-error skeleton of `Application.Run`: with no apps to
audit it warns and returns nil (no error); otherwise every selected app is
audited (`auditFor` gives each app's `auditApp` error, if any) and an error
is returned iff at least one app's audit failed. Returns the run error and
the names of the apps audited. -/
def ApplicationRun (cfg : Config) (auditFor : AppConfig → Option String) :
    Option String × List String :=
  let apps := getAppsToAudit cfg
  if apps.length = 0 then (none, [])
  else
    let errs := apps.filterMap
      (fun app => (auditFor app).map
        (fun e => "audit failed for " ++ app.name ++ ": " ++ e))
    ((if errs.length > 0 then some "audit completed with errors" else none),
     apps.map (fun a => a.name))

/-- The exit decision of `RunAudit` (pkg/cli/app.go): a run error exits 2;
otherwise `Application.HasVulnerabilities` exits 1; otherwise the command
returns nil and the process exits 0. -/
def RunAuditExitCode (runErr : Option String) (hasVulnerabilities : Bool) : Nat :=
  if runErr.isSome then 2
  else if hasVulnerabilities then 1
  else 0

/-! ## Concrete inputs used by witnesses and counterexamples -/

def exVuln (pkg sev : String) : Vulnerability :=
  { packageName := pkg, severity := sev, cveID := "", title := "" }

/-- An audit result whose counts are consistent with its list (as
`runSingleAudit` produces via `UpdateCounts`). -/
def exResult (vulns : List Vulnerability) : AuditResult :=
  AuditResult.UpdateCounts
    { appName := "web", appPath := "/srv/web", auditorType := "npm"
      totalVulnerabilities := 0, criticalCount := 0, highCount := 0
      moderateCount := 0, lowCount := 0, vulnerabilities := vulns }

def exReport (vulns : List Vulnerability) : Report :=
  NewReport (exResult vulns)

/-- One scanner reported [A(high), B(high), C(critical)] in that order. -/
def cexStability : CombinedAppReport :=
  { appName := "web", appPath := "/srv/web"
    reports := [exReport [exVuln "A" "high", exVuln "B" "high", exVuln "C" "critical"]]
    reportFiles := [] }

/-- Two scanners, each reporting one high-severity vulnerability, appended in
the order A then B. -/
def exTwoScanners : CombinedAppReport :=
  { appName := "web", appPath := "/srv/web"
    reports := [exReport [exVuln "A" "high"], exReport [exVuln "B" "high"]]
    reportFiles := [] }

/-- A combined report whose constituent stores a critical count of 7 while
its vulnerability list is empty: summing stored counts and re-counting the
concatenated list disagree on it. -/
def cexStoredCounts : CombinedAppReport :=
  { appName := "web", appPath := "/srv/web"
    reports := [NewReport
      { appName := "web", appPath := "/srv/web", auditorType := "npm"
        totalVulnerabilities := 7, criticalCount := 7, highCount := 0
        moderateCount := 0, lowCount := 0, vulnerabilities := [] }]
    reportFiles := [] }

/-- A Telegram world in which topic 5 was deleted upstream: a send requested
for thread 5 is delivered to General (receipt thread 0); every other thread
delivers where requested; creation works and will assign id 9. -/
def exWorldDeleted : TgWorld :=
  { deliverTo := fun t => if t = 5 then 0 else t
    sendFails := fun _ => false
    createFails := false
    nextId := 9
    sends := [] }

/-- A Telegram world in which every send lands in General (thread 0): the
persisted topic is deleted and the freshly created replacement is deleted
again before the resend. -/
def exWorldAllGeneral : TgWorld :=
  { deliverTo := fun _ => 0
    sendFails := fun _ => false
    createFails := false
    nextId := 9
    sends := [] }

/-- Like `exWorldDeleted` but topic creation fails. -/
def exWorldCreateFails : TgWorld :=
  { deliverTo := fun t => if t = 5 then 0 else t
    sendFails := fun _ => false
    createFails := true
    nextId := 9
    sends := [] }

def exNotifier : TelegramNotifier :=
  { enabled := true, topicCache := [] }

/-- A scanner oracle that fails on attempts 1 and 2 and succeeds on
attempt 3. -/
def exAuditOracle : Nat → Except String AuditResult :=
  fun attempt =>
    if attempt ≤ 2 then Except.error "scanner failed"
    else Except.ok (exResult [exVuln "A" "high"])

/-- A configuration whose single enabled app is named web while the run is
targeted at the absent name ghost. -/
def cexConfig : Config :=
  { targetApp := "ghost"
    apps := [{ name := "web", path := "/srv/web", enabled := true }] }

/-! # Theorems -/

/-! ## Helper lemmas -/

/-- The fold in `GetCombinedSummary` adds, field by field, the stored counts
of the constituent reports to the accumulator. -/
theorem combinedFold_spec (l : List Report) (s : Summary) :
    (l.foldl
      (fun summary r =>
        let t := r.GetSummary
        { total := summary.total + t.total
          critical := summary.critical + t.critical
          high := summary.high + t.high
          moderate := summary.moderate + t.moderate
          low := summary.low + t.low })
      s) =
    { total := s.total + (l.map (fun r => r.GetSummary.total)).sum
      critical := s.critical + (l.map (fun r => r.GetSummary.critical)).sum
      high := s.high + (l.map (fun r => r.GetSummary.high)).sum
      moderate := s.moderate + (l.map (fun r => r.GetSummary.moderate)).sum
      low := s.low + (l.map (fun r => r.GetSummary.low)).sum } := by
  induction l generalizing s with
  | nil => simp
  | cons r rest ih =>
    simp only [List.foldl_cons, List.map_cons, List.sum_cons, ih]
    simp [Summary.mk.injEq]
    omega

/-- C9 (claim): for every threshold and every vulnerability list, filtering
twice at the threshold yields the same list as filtering once. -/
theorem FilterVulnerabilities_idempotent (threshold : String)
    (vulns : List Vulnerability) :
    FilterVulnerabilities (FilterVulnerabilities vulns threshold) threshold =
      FilterVulnerabilities vulns threshold := by
  induction vulns with
  | nil => rfl
  | cons v rest ih =>
    by_cases h : MeetsSeverityThreshold v.severity threshold = true
    · simp [FilterVulnerabilities, h, ih]
    · simp [FilterVulnerabilities, h, ih]

/-- C1 (claim): every combined summary field equals the arithmetic sum of
the constituent reports' stored counts, per severity bucket and for the
total; and the counts are the stored ones, not a re-count of the
concatenated vulnerability list: `cexStoredCounts` stores a critical count
of 7 over an empty list, and its combined critical count is 7 while the
concatenated list re-counts to 0. -/
theorem GetCombinedSummary_sums_constituents :
    (∀ c : CombinedAppReport,
      c.GetCombinedSummary.total
          = (c.reports.map (fun r => r.auditResult.totalVulnerabilities)).sum ∧
      c.GetCombinedSummary.critical
          = (c.reports.map (fun r => r.auditResult.criticalCount)).sum ∧
      c.GetCombinedSummary.high
          = (c.reports.map (fun r => r.auditResult.highCount)).sum ∧
      c.GetCombinedSummary.moderate
          = (c.reports.map (fun r => r.auditResult.moderateCount)).sum ∧
      c.GetCombinedSummary.low
          = (c.reports.map (fun r => r.auditResult.lowCount)).sum) ∧
    cexStoredCounts.GetCombinedSummary.critical = 7 ∧
    (cexStoredCounts.reports.foldl (fun acc r => acc ++ r.vulnerabilities) []).length = 0 := by
  refine ⟨fun c => ?_, by decide, by decide⟩
  unfold CombinedAppReport.GetCombinedSummary
  rw [combinedFold_spec]
  simp [Report.GetSummary]

/-- Any string other than the four counted severities has ordinal 0 (the Go
map yields the zero value for absent keys, and info is mapped to 0). -/
theorem SeverityOrder_absent (s : String)
    (h1 : s ≠ SeverityCritical) (h2 : s ≠ SeverityHigh)
    (h3 : s ≠ SeverityModerate) (h4 : s ≠ SeverityLow) :
    SeverityOrder s = 0 := by
  simp only [SeverityOrder, if_neg h1, if_neg h2, if_neg h3, if_neg h4, ite_self]

/-- A threshold of ordinal 0 is met by every severity. -/
theorem MeetsSeverityThreshold_of_zero (s t : String) (h : SeverityOrder t = 0) :
    MeetsSeverityThreshold s t = true := by
  simp [MeetsSeverityThreshold, h]

/-- A threshold of ordinal 0 makes the filter keep everything. -/
theorem FilterVulnerabilities_all_of_zero (t : String) (h : SeverityOrder t = 0) :
    ∀ vulns, FilterVulnerabilities vulns t = vulns := by
  intro vulns
  induction vulns with
  | nil => rfl
  | cons v rest ih =>
    simp [FilterVulnerabilities, MeetsSeverityThreshold_of_zero v.severity t h, ih]

/-- C10 (counterexample): the scanner label medium is outside
critical/high/moderate/low/info, yet `normalizeSeverity` maps it to
moderate, not info, and it is retained, not dropped, at the
above-info threshold moderate. -/
theorem normalizeSeverity_medium_cex :
    normalizeSeverity "medium" = "moderate" ∧
    ¬("medium" = "critical" ∨ "medium" = "high" ∨ "medium" = "moderate" ∨
      "medium" = "low" ∨ "medium" = "info") ∧
    normalizeSeverity "medium" ≠ "info" ∧
    MeetsSeverityThreshold (normalizeSeverity "medium") "moderate" = true ∧
    SeverityOrder "moderate" > SeverityOrder "info" := by
  decide

/-- C10 (amended): severity comparison treats every string absent from the
severity table as ordinal 0; a scanner-reported severity whose lowercased
form is outside critical/high/moderate/medium/low is normalized to info and
dropped by any above-info threshold, while medium is normalized to moderate;
and every threshold of ordinal 0 — in particular every unrecognized
threshold string — keeps every vulnerability, info-level ones included. -/
theorem severity_default_contract :
    (∀ s : String, s ≠ SeverityCritical → s ≠ SeverityHigh →
      s ≠ SeverityModerate → s ≠ SeverityLow → SeverityOrder s = 0) ∧
    (∀ s : String, toLowerString s ≠ "critical" → toLowerString s ≠ "high" →
      toLowerString s ≠ "moderate" → toLowerString s ≠ "medium" →
      toLowerString s ≠ "low" → normalizeSeverity s = SeverityInfo) ∧
    normalizeSeverity "medium" = SeverityModerate ∧
    (∀ s t : String, SeverityOrder s = 0 → 0 < SeverityOrder t →
      MeetsSeverityThreshold s t = false) ∧
    (∀ t : String, t ≠ SeverityCritical → t ≠ SeverityHigh →
      t ≠ SeverityModerate → t ≠ SeverityLow →
      ∀ vulns, FilterVulnerabilities vulns t = vulns) := by
  refine ⟨SeverityOrder_absent, ?_, by decide, ?_, ?_⟩
  · intro s h1 h2 h3 h4 h5
    simp [normalizeSeverity, h1, h2, h3, h4, h5]
  · intro s t hs ht
    simp only [MeetsSeverityThreshold, hs, decide_eq_false_iff_not]
    omega
  · intro t h1 h2 h3 h4 vulns
    exact FilterVulnerabilities_all_of_zero t (SeverityOrder_absent t h1 h2 h3 h4) vulns

/-- Witness for `severity_default_contract` at concrete inputs: the
unrecognized severity serious has ordinal 0 and is dropped at threshold
high; the unrecognized label wontfix normalizes to info; the misspelled
threshold hgih keeps an info-level vulnerability. -/
theorem severity_default_contract_witness :
    SeverityOrder "serious" = 0 ∧
    normalizeSeverity "wontfix" = SeverityInfo ∧
    MeetsSeverityThreshold "serious" "high" = false ∧
    FilterVulnerabilities [exVuln "x" "info"] "hgih" = [exVuln "x" "info"] :=
  ⟨severity_default_contract.1 "serious" (by decide) (by decide) (by decide) (by decide),
   severity_default_contract.2.1 "wontfix" (by decide) (by decide) (by decide)
     (by decide) (by decide),
   severity_default_contract.2.2.2.1 "serious" "high"
     (severity_default_contract.1 "serious" (by decide) (by decide) (by decide) (by decide))
     (by decide),
   severity_default_contract.2.2.2.2 "hgih" (by decide) (by decide) (by decide) (by decide)
     [exVuln "x" "info"]⟩

/-- Inner-loop step, swap case, first component. -/
theorem selOne_fst_cons_pos (p x : Vulnerability) (xs : List Vulnerability)
    (h : SeverityOrder x.severity > SeverityOrder p.severity) :
    (selOne p (x :: xs)).1 = (selOne x xs).1 := by
  simp [selOne, h]

/-- Inner-loop step, swap case, second component. -/
theorem selOne_snd_cons_pos (p x : Vulnerability) (xs : List Vulnerability)
    (h : SeverityOrder x.severity > SeverityOrder p.severity) :
    (selOne p (x :: xs)).2 = p :: (selOne x xs).2 := by
  simp [selOne, h]

/-- Inner-loop step, no-swap case, first component. -/
theorem selOne_fst_cons_neg (p x : Vulnerability) (xs : List Vulnerability)
    (h : ¬ SeverityOrder x.severity > SeverityOrder p.severity) :
    (selOne p (x :: xs)).1 = (selOne p xs).1 := by
  simp [selOne, h]

/-- Inner-loop step, no-swap case, second component. -/
theorem selOne_snd_cons_neg (p x : Vulnerability) (xs : List Vulnerability)
    (h : ¬ SeverityOrder x.severity > SeverityOrder p.severity) :
    (selOne p (x :: xs)).2 = x :: (selOne p xs).2 := by
  simp [selOne, h]

/-- The pivot the inner loop ends with is at least as severe as the pivot it
started with. -/
theorem selOne_fst_ge (p : Vulnerability) (l : List Vulnerability) :
    SeverityOrder p.severity ≤ SeverityOrder (selOne p l).1.severity := by
  induction l generalizing p with
  | nil => simp [selOne]
  | cons x xs ih =>
    by_cases h : SeverityOrder x.severity > SeverityOrder p.severity
    · rw [selOne_fst_cons_pos p x xs h]
      have hx := ih x
      omega
    · rw [selOne_fst_cons_neg p x xs h]
      exact ih p

/-- Every element the inner loop leaves behind is at most as severe as the
pivot it ends with. -/
theorem selOne_snd_le (p : Vulnerability) (l : List Vulnerability) :
    ∀ x ∈ (selOne p l).2,
      SeverityOrder x.severity ≤ SeverityOrder (selOne p l).1.severity := by
  induction l generalizing p with
  | nil => simp [selOne]
  | cons y ys ih =>
    by_cases h : SeverityOrder y.severity > SeverityOrder p.severity
    · rw [selOne_fst_cons_pos p y ys h, selOne_snd_cons_pos p y ys h]
      intro x hx
      rcases List.mem_cons.mp hx with hxp | hxs
      · subst hxp
        have := selOne_fst_ge y ys
        omega
      · exact ih y x hxs
    · rw [selOne_fst_cons_neg p y ys h, selOne_snd_cons_neg p y ys h]
      intro x hx
      rcases List.mem_cons.mp hx with hxy | hxs
      · subst hxy
        have := selOne_fst_ge p ys
        omega
      · exact ih p x hxs

/-- The final pivot is one of the scanned elements. -/
theorem selOne_fst_mem (p : Vulnerability) (l : List Vulnerability) :
    (selOne p l).1 = p ∨ (selOne p l).1 ∈ l := by
  induction l generalizing p with
  | nil => exact Or.inl rfl
  | cons y ys ih =>
    by_cases h : SeverityOrder y.severity > SeverityOrder p.severity
    · rw [selOne_fst_cons_pos p y ys h]
      rcases ih y with h1 | h1
      · rw [h1]; exact Or.inr (List.mem_cons_self y ys)
      · exact Or.inr (List.mem_cons_of_mem y h1)
    · rw [selOne_fst_cons_neg p y ys h]
      rcases ih p with h1 | h1
      · exact Or.inl h1
      · exact Or.inr (List.mem_cons_of_mem y h1)

/-- Every element left behind by the inner loop was among the scanned ones. -/
theorem selOne_snd_mem (p : Vulnerability) (l : List Vulnerability) :
    ∀ x ∈ (selOne p l).2, x = p ∨ x ∈ l := by
  induction l generalizing p with
  | nil => simp [selOne]
  | cons y ys ih =>
    by_cases h : SeverityOrder y.severity > SeverityOrder p.severity
    · rw [selOne_snd_cons_pos p y ys h]
      intro x hx
      rcases List.mem_cons.mp hx with hxp | hxs
      · exact Or.inl hxp
      · rcases ih y x hxs with h1 | h1
        · rw [h1]; exact Or.inr (List.mem_cons_self y ys)
        · exact Or.inr (List.mem_cons_of_mem y h1)
    · rw [selOne_snd_cons_neg p y ys h]
      intro x hx
      rcases List.mem_cons.mp hx with hxy | hxs
      · rw [hxy]; exact Or.inr (List.mem_cons_self y ys)
      · rcases ih p x hxs with h1 | h1
        · exact Or.inl h1
        · exact Or.inr (List.mem_cons_of_mem y h1)

/-- The outer loop only permutes or drops elements: everything in its output
was in its input. -/
theorem sevSortGo_mem (fuel : Nat) :
    ∀ (l : List Vulnerability) (x : Vulnerability), x ∈ sevSortGo fuel l → x ∈ l := by
  induction fuel with
  | zero => intro l x hx; simp [sevSortGo] at hx
  | succ fuel ih =>
    intro l x hx
    match l with
    | [] => simp [sevSortGo] at hx
    | y :: ys =>
      simp only [sevSortGo] at hx
      rcases List.mem_cons.mp hx with hfst | hrest
      · rcases selOne_fst_mem y ys with h | h
        · rw [hfst, h]; exact List.mem_cons_self y ys
        · rw [hfst]; exact List.mem_cons_of_mem y h
      · rcases selOne_snd_mem y ys x (ih _ x hrest) with h | h
        · rw [h]; exact List.mem_cons_self y ys
        · exact List.mem_cons_of_mem y h

/-- The output of the exchange sort is descending in severity ordinal. -/
theorem sevSortGo_pairwise (fuel : Nat) :
    ∀ (l : List Vulnerability),
      (sevSortGo fuel l).Pairwise
        (fun a b => SeverityOrder b.severity ≤ SeverityOrder a.severity) := by
  induction fuel with
  | zero => intro l; simp [sevSortGo]
  | succ fuel ih =>
    intro l
    match l with
    | [] => simp [sevSortGo]
    | y :: ys =>
      simp only [sevSortGo]
      refine List.Pairwise.cons ?_ (ih _)
      intro z hz
      exact selOne_snd_le y ys z (sevSortGo_mem fuel _ z hz)

/-- C2 (counterexample): for the input [A(high), B(high), C(critical)],
appended in that order, the top-5 output is [C, B, A]: the equal-severity
pair A, B appears in the output in the reverse of its input order, so the
selection is not a stable sort. -/
theorem collectTopVulnerabilities_not_stable :
    collectTopVulnerabilities cexStability 5 =
      [exVuln "C" "critical", exVuln "B" "high", exVuln "A" "high"] ∧
    cexStability.reports.foldl (fun acc r => acc ++ r.vulnerabilities) [] =
      [exVuln "A" "high", exVuln "B" "high", exVuln "C" "critical"] ∧
    (exVuln "A" "high").severity = (exVuln "B" "high").severity ∧
    exVuln "A" "high" ≠ exVuln "B" "high" := by
  refine ⟨by decide, by decide, by decide, by decide⟩

/-- C2 (amended): the top-N selection over the concatenation of the
constituent lists is sorted in descending severity ordinal, but the sort is
not stable in general (an equal-severity pair can be reordered when a
strictly more severe vulnerability follows it); for the two-element input
[A(high), B(high)] appended in that order from two scanners, the top-2
output is still [A, B]. -/
theorem collectTopVulnerabilities_sorted :
    (∀ (c : CombinedAppReport) (limit : Nat),
      (collectTopVulnerabilities c limit).Pairwise
        (fun a b => SeverityOrder b.severity ≤ SeverityOrder a.severity)) ∧
    collectTopVulnerabilities exTwoScanners 2 =
      [exVuln "A" "high", exVuln "B" "high"] := by
  constructor
  · intro c limit
    have hs : (sevSort (c.reports.foldl (fun acc r => acc ++ r.vulnerabilities) [])).Pairwise
        (fun a b => SeverityOrder b.severity ≤ SeverityOrder a.severity) :=
      sevSortGo_pairwise _ _
    show List.Pairwise _
      (if (sevSort (c.reports.foldl (fun acc r => acc ++ r.vulnerabilities) [])).length > limit
       then (sevSort (c.reports.foldl (fun acc r => acc ++ r.vulnerabilities) [])).take limit
       else sevSort (c.reports.foldl (fun acc r => acc ++ r.vulnerabilities) []))
    split
    · exact List.Pairwise.sublist (List.take_sublist _ _) hs
    · exact hs
  · decide

/-- A freshly written cache binding is found. -/
theorem cacheFind_set (c : List (String × Int)) (k : String) (v : Int) :
    cacheFind (cacheSet c k v) k = some v := by
  simp [cacheFind, cacheSet]

/-- C3 (claim): deletion-recovery success path of `SendCombinedToTopic`.
With a persisted thread id T > 0 whose delivery receipt reports a different
thread, and a working creation and resend, the call returns the fresh id T2
(= the id the channel assigns next) with no error; T2 is distinct from T;
the cache now maps the project to T2; the same message was resent to T2
(the send log gained exactly the T send and the T2 resend of the same
report); and a subsequent topic resolution for the project — whether from
the persisted update T2 or from the cache — returns T2, not T. -/
theorem SendCombinedToTopic_recovery
    (n : TelegramNotifier) (w : TgWorld) (report : CombinedAppReport)
    (appName : String) (T : Int)
    (hen : n.enabled = true) (hname : appName ≠ "")
    (hT : T > 0)
    (hsend : w.sendFails T = false)
    (hmismatch : w.deliverTo T ≠ T)
    (hcreate : w.createFails = false)
    (hfresh : 0 < w.nextId)
    (hdistinct : w.nextId ≠ T)
    (hresend : w.sendFails w.nextId = false) :
    (SendCombinedToTopic n w report appName T).1 = (w.nextId, none) ∧
    w.nextId ≠ T ∧
    cacheFind (SendCombinedToTopic n w report appName T).2.1.topicCache appName
      = some w.nextId ∧
    (SendCombinedToTopic n w report appName T).2.2.sends
      = w.sends ++ [(T, report), (w.nextId, report)] ∧
    ((getOrCreateTopic (SendCombinedToTopic n w report appName T).2.1
        (SendCombinedToTopic n w report appName T).2.2 appName w.nextId).toOption.map
      (fun x => x.1)) = some w.nextId ∧
    ((getOrCreateTopic (SendCombinedToTopic n w report appName T).2.1
        (SendCombinedToTopic n w report appName T).2.2 appName 0).toOption.map
      (fun x => x.1)) = some w.nextId := by
  have hle : ¬ (w.nextId ≤ 0) := by omega
  have key : SendCombinedToTopic n w report appName T =
      ((w.nextId, none),
       ({ n with topicCache := cacheSet (cacheDelete (cacheSet n.topicCache appName T) appName) appName w.nextId } : TelegramNotifier),
       ({ w with nextId := w.nextId + 1, sends := (w.sends ++ [(T, report)]) ++ [(w.nextId, report)] } : TgWorld)) := by
    have hen2 : ¬ (n.enabled = false) := by simp [hen]
    have h1 : getOrCreateTopic n w appName T =
        Except.ok (T, ({ n with topicCache := cacheSet n.topicCache appName T } : TelegramNotifier), w) := by
      simp [getOrCreateTopic, hT]
    have h2 : sendMessageWithAttachments w T report =
        Except.ok (w.deliverTo T, ({ w with sends := w.sends ++ [(T, report)] } : TgWorld)) := by
      simp [sendMessageWithAttachments, hsend]
    have h3 : createForumTopic ({ w with sends := w.sends ++ [(T, report)] } : TgWorld) =
        Except.ok (w.nextId, ({ w with nextId := w.nextId + 1, sends := w.sends ++ [(T, report)] } : TgWorld)) := by
      simp [createForumTopic, hcreate, hle]
    have h4 : sendMessageWithAttachments
        ({ w with nextId := w.nextId + 1, sends := w.sends ++ [(T, report)] } : TgWorld) w.nextId report =
        Except.ok (w.deliverTo w.nextId,
          ({ w with nextId := w.nextId + 1, sends := (w.sends ++ [(T, report)]) ++ [(w.nextId, report)] } : TgWorld)) := by
      simp [sendMessageWithAttachments, hresend]
    simp only [SendCombinedToTopic]
    rw [if_neg hen2, if_neg hname, h1]
    dsimp only
    rw [h2]
    dsimp only
    rw [if_pos ⟨hT, hmismatch⟩]
    dsimp only [invalidateTopicCache]
    rw [h3]
    dsimp only
    rw [h4]
  refine ⟨by rw [key], hdistinct, ?_, ?_, ?_, ?_⟩
  · rw [key]; exact cacheFind_set _ _ _
  · rw [key]; simp
  · rw [key]
    simp only [getOrCreateTopic, hfresh, if_pos]
    rfl
  · rw [key]
    have h0 : ¬ ((0 : Int) > 0) := by omega
    simp only [getOrCreateTopic, h0, if_neg]
    rw [cacheFind_set]
    rfl

/-- Witness for `SendCombinedToTopic_recovery`: persisted id 5 in a world
where topic 5 was deleted (receipt says thread 0) and the replacement gets
id 9: the call returns 9 with no error and the cache maps the project
to 9. -/
theorem SendCombinedToTopic_recovery_witness :
    exWorldDeleted.deliverTo 5 ≠ 5 ∧
    (SendCombinedToTopic exNotifier exWorldDeleted exTwoScanners "web" 5).1 = (9, none) ∧
    cacheFind (SendCombinedToTopic exNotifier exWorldDeleted exTwoScanners "web" 5).2.1.topicCache "web"
      = some 9 := by
  have h := SendCombinedToTopic_recovery exNotifier exWorldDeleted exTwoScanners "web" 5
    rfl (by decide) (by decide) rfl (by decide) rfl (by decide) (by decide) rfl
  exact ⟨by decide, h.1, h.2.2.1⟩

/-- C4 (counterexample): during recovery the resent message's receipt is not
checked. In a world where every send lands in General (thread 0), the resend
to the replacement topic 9 also reports thread 0 ≠ 9, yet the call returns
(9, nil) — a nonzero, unverified id — instead of the zero id the claim
requires. -/
theorem SendCombinedToTopic_unverified_resend_cex :
    (SendCombinedToTopic exNotifier exWorldAllGeneral exTwoScanners "web" 5).1 = (9, none) ∧
    exWorldAllGeneral.deliverTo 9 ≠ 9 ∧
    (9 : Int) ≠ 0 := by
  refine ⟨by decide, by decide, by decide⟩

/-- C4 (amended): when recovery from a detected thread deletion cannot
create a replacement thread, the send returns a zero thread id (and no
error) so the persisted value is cleared; but the resent message's receipt
is never verified: whenever the replacement is created, the call returns the
replacement id with no error regardless of where the resend is delivered or
whether it fails. -/
theorem SendCombinedToTopic_recovery_failure :
    (∀ (n : TelegramNotifier) (w : TgWorld) (report : CombinedAppReport)
       (appName : String) (T : Int),
      n.enabled = true → appName ≠ "" → T > 0 →
      w.sendFails T = false → w.deliverTo T ≠ T → w.createFails = true →
      (SendCombinedToTopic n w report appName T).1 = (0, none)) ∧
    (∀ (n : TelegramNotifier) (w : TgWorld) (report : CombinedAppReport)
       (appName : String) (T : Int),
      n.enabled = true → appName ≠ "" → T > 0 →
      w.sendFails T = false → w.deliverTo T ≠ T → w.createFails = false →
      0 < w.nextId →
      (SendCombinedToTopic n w report appName T).1 = (w.nextId, none)) := by
  constructor
  · intro n w report appName T hen hname hT hsend hmismatch hcreate
    have hen2 : ¬ (n.enabled = false) := by simp [hen]
    have h1 : getOrCreateTopic n w appName T =
        Except.ok (T, ({ n with topicCache := cacheSet n.topicCache appName T } : TelegramNotifier), w) := by
      simp [getOrCreateTopic, hT]
    have h2 : sendMessageWithAttachments w T report =
        Except.ok (w.deliverTo T, ({ w with sends := w.sends ++ [(T, report)] } : TgWorld)) := by
      simp [sendMessageWithAttachments, hsend]
    have h3 : createForumTopic ({ w with sends := w.sends ++ [(T, report)] } : TgWorld) =
        Except.error "failed to create forum topic" := by
      simp [createForumTopic, hcreate]
    simp only [SendCombinedToTopic]
    rw [if_neg hen2, if_neg hname, h1]
    dsimp only
    rw [h2]
    dsimp only
    rw [if_pos ⟨hT, hmismatch⟩]
    dsimp only [invalidateTopicCache]
    rw [h3]
  · intro n w report appName T hen hname hT hsend hmismatch hcreate hfresh
    have hle : ¬ (w.nextId ≤ 0) := by omega
    have hen2 : ¬ (n.enabled = false) := by simp [hen]
    have h1 : getOrCreateTopic n w appName T =
        Except.ok (T, ({ n with topicCache := cacheSet n.topicCache appName T } : TelegramNotifier), w) := by
      simp [getOrCreateTopic, hT]
    have h2 : sendMessageWithAttachments w T report =
        Except.ok (w.deliverTo T, ({ w with sends := w.sends ++ [(T, report)] } : TgWorld)) := by
      simp [sendMessageWithAttachments, hsend]
    have h3 : createForumTopic ({ w with sends := w.sends ++ [(T, report)] } : TgWorld) =
        Except.ok (w.nextId, ({ w with nextId := w.nextId + 1, sends := w.sends ++ [(T, report)] } : TgWorld)) := by
      simp [createForumTopic, hcreate, hle]
    simp only [SendCombinedToTopic]
    rw [if_neg hen2, if_neg hname, h1]
    dsimp only
    rw [h2]
    dsimp only
    rw [if_pos ⟨hT, hmismatch⟩]
    dsimp only [invalidateTopicCache]
    rw [h3]
    dsimp only
    split <;> rfl

/-- Witness for `SendCombinedToTopic_recovery_failure`: with creation
failing, the call returns a zero id and no error; with creation working but
every send landing in General, it returns the unverified replacement id 9. -/
theorem SendCombinedToTopic_recovery_failure_witness :
    exWorldCreateFails.createFails = true ∧
    (SendCombinedToTopic exNotifier exWorldCreateFails exTwoScanners "web" 5).1 = (0, none) ∧
    (SendCombinedToTopic exNotifier exWorldAllGeneral exTwoScanners "web" 9).1 = (9, none) := by
  refine ⟨rfl, ?_, ?_⟩
  · exact SendCombinedToTopic_recovery_failure.1 exNotifier exWorldCreateFails exTwoScanners
      "web" 5 rfl (by decide) (by decide) rfl (by decide) rfl
  · exact SendCombinedToTopic_recovery_failure.2 exNotifier exWorldAllGeneral exTwoScanners
      "web" 9 rfl (by decide) (by decide) rfl (by decide) rfl (by decide)

/-- C5 (claim): per project, `auditApp` triggers at most one combined
dispatch, and exactly one iff the combined report has vulnerabilities and
the run is not report-only — regardless of how many scanner outcomes there
are; in report-only mode it triggers none. When the constituent stored
totals are consistent with their lists (as `runSingleAudit` guarantees via
`UpdateCounts`), one dispatch happens iff some constituent has a nonempty
vulnerability list. -/
theorem auditApp_dispatch_contract (reportOnly : Bool) (appName appPath : String)
    (outcomes : List (Except String (Report × List String))) :
    (auditApp reportOnly appName appPath outcomes).2.1 ≤ 1 ∧
    (reportOnly = true → (auditApp reportOnly appName appPath outcomes).2.1 = 0) ∧
    (reportOnly = false →
      ((auditApp reportOnly appName appPath outcomes).2.1 = 1 ↔
        (auditApp reportOnly appName appPath outcomes).1.HasVulnerabilities = true)) ∧
    ((∀ r ∈ (auditApp reportOnly appName appPath outcomes).1.reports,
        r.auditResult.totalVulnerabilities = (r.auditResult.vulnerabilities.length : Int)) →
      reportOnly = false →
      ((auditApp reportOnly appName appPath outcomes).2.1 = 1 ↔
        ∃ r ∈ (auditApp reportOnly appName appPath outcomes).1.reports,
          r.auditResult.vulnerabilities ≠ [])) := by
  have hd : (auditApp reportOnly appName appPath outcomes).2.1 =
      (if (auditApp reportOnly appName appPath outcomes).1.HasVulnerabilities && !reportOnly
       then 1 else 0) := rfl
  refine ⟨?_, ?_, ?_, ?_⟩
  · rw [hd]; split <;> omega
  · intro hro; rw [hd, hro]; simp
  · intro hro
    rw [hd, hro]
    cases hb : (auditApp reportOnly appName appPath outcomes).1.HasVulnerabilities <;>
      simp [hb]
  · intro hlen hro
    have hnb : (!reportOnly) = true := by rw [hro]; rfl
    rw [hd, hnb, Bool.and_true]
    have hchar : (auditApp reportOnly appName appPath outcomes).1.HasVulnerabilities = true ↔
        ∃ r ∈ (auditApp reportOnly appName appPath outcomes).1.reports,
          r.auditResult.vulnerabilities ≠ [] := by
      unfold CombinedAppReport.HasVulnerabilities AuditResult.HasVulnerabilities
      rw [List.any_eq_true]
      constructor
      · rintro ⟨r, hr, hp⟩
        refine ⟨r, hr, ?_⟩
        have h1 : r.auditResult.totalVulnerabilities > 0 := by simpa using hp
        rw [hlen r hr] at h1
        have h2 : 0 < r.auditResult.vulnerabilities.length := by exact_mod_cast h1
        exact List.length_pos.mp h2
      · rintro ⟨r, hr, hne⟩
        refine ⟨r, hr, ?_⟩
        have h2 : 0 < r.auditResult.vulnerabilities.length := List.length_pos.mpr hne
        have h1 : (0 : Int) < (r.auditResult.vulnerabilities.length : Int) := by
          exact_mod_cast h2
        rw [hlen r hr]
        simpa using h1
    rw [← hchar]
    cases hb : (auditApp reportOnly appName appPath outcomes).1.HasVulnerabilities <;>
      simp [hb]

/-- Witness for `auditApp_dispatch_contract`: one successful outcome with a
high-severity vulnerability and report-only off yields exactly one
dispatch. -/
theorem auditApp_dispatch_contract_witness :
    (auditApp false "web" "/srv/web"
      [Except.ok (exReport [exVuln "A" "high"], [])]).2.1 = 1 :=
  ((auditApp_dispatch_contract false "web" "/srv/web"
      [Except.ok (exReport [exVuln "A" "high"], [])]).2.2.1 rfl).mpr (by decide)

/-- C7 (counterexample): the run is targeted at the absent project ghost,
every attempted audit would fail, yet `Run` returns no error and audits
nothing — it completes successfully instead of reporting a run-level
error. -/
theorem ApplicationRun_missing_target_cex :
    ApplicationRun cexConfig (fun _ => some "boom") = (none, []) ∧
    cexConfig.targetApp = "ghost" ∧
    cexConfig.GetApp "ghost" = none ∧
    (∀ app ∈ cexConfig.apps, app.name ≠ "ghost") := by
  refine ⟨by decide, rfl, by decide, by decide⟩

/-- C7 (amended): if a single target project name is supplied and no
configured project has that name, no scan job starts (the selection is
empty), an error is only logged, and the run completes without a run-level
error: `Run` returns nil having audited nothing. -/
theorem ApplicationRun_missing_target (cfg : Config)
    (auditFor : AppConfig → Option String)
    (h1 : cfg.targetApp ≠ "") (h2 : cfg.GetApp cfg.targetApp = none) :
    ApplicationRun cfg auditFor = (none, []) ∧ getAppsToAudit cfg = [] := by
  have hg : getAppsToAudit cfg = [] := by
    unfold getAppsToAudit
    rw [if_pos h1, h2]
  exact ⟨by simp [ApplicationRun, hg], hg⟩

/-- Witness for `ApplicationRun_missing_target` at the concrete
configuration. -/
theorem ApplicationRun_missing_target_witness :
    cexConfig.targetApp ≠ "" ∧
    ApplicationRun cexConfig (fun _ => none) = (none, []) :=
  ⟨by decide,
   (ApplicationRun_missing_target cexConfig (fun _ => none) (by decide) (by decide)).1⟩

/-- Retry loop, success case, from an arbitrary starting attempt: if every
attempt from a up to (but excluding) k fails and attempt k ≤ maxAttempts
succeeds, the loop returns attempt k result, no error, and slept exactly
after the failed attempts a, a+1, ..., k-1 (each for its attempt number of
units). -/
theorem retryFrom_success (audit : Nat → Except String AuditResult)
    (maxAttempts : Nat) (r : AuditResult) :
    ∀ (k a : Nat), a ≤ k → k ≤ maxAttempts →
      (∀ j, a ≤ j → j < k → ∃ e, audit j = Except.error e) →
      audit k = Except.ok r →
      retryFrom audit maxAttempts a = (some r, none, List.range' a (k - a)) := by
  intro k
  have main : ∀ (n a : Nat), k - a = n → a ≤ k → k ≤ maxAttempts →
      (∀ j, a ≤ j → j < k → ∃ e, audit j = Except.error e) →
      audit k = Except.ok r →
      retryFrom audit maxAttempts a = (some r, none, List.range' a (k - a)) := by
    intro n
    induction n with
    | zero =>
      intro a hn ha hk hfail hok
      have hak : a = k := by omega
      subst hak
      rw [retryFrom, if_neg (by omega), hok]
      simp
    | succ n ihn =>
      intro a hn ha hk hfail hok
      have halt : a < k := by omega
      obtain ⟨e, he⟩ := hfail a (Nat.le_refl a) halt
      rw [retryFrom, if_neg (by omega), he]
      dsimp only
      rw [if_pos (show a < maxAttempts by omega)]
      rw [ihn (a + 1) (by omega) (by omega) hk
        (fun j hj1 hj2 => hfail j (by omega) hj2) hok]
      dsimp only
      rw [hn, List.range'_succ, show k - (a + 1) = n by omega]
  intro a ha hk hfail hok
  exact main (k - a) a rfl ha hk hfail hok

/-- Retry loop, all-fail case, from an arbitrary starting attempt: if every
attempt from a up to (but excluding) maxAttempts fails and the final attempt
fails with e, the loop returns no result, the final error e, and slept after
every failed attempt except the last. -/
theorem retryFrom_all_fail (audit : Nat → Except String AuditResult)
    (maxAttempts : Nat) (e : String) :
    ∀ (a : Nat), 1 ≤ a → a ≤ maxAttempts →
      (∀ j, a ≤ j → j < maxAttempts → ∃ e2, audit j = Except.error e2) →
      audit maxAttempts = Except.error e →
      retryFrom audit maxAttempts a =
        (none, some e, List.range' a (maxAttempts - a)) := by
  have main : ∀ (n a : Nat), maxAttempts - a = n → 1 ≤ a → a ≤ maxAttempts →
      (∀ j, a ≤ j → j < maxAttempts → ∃ e2, audit j = Except.error e2) →
      audit maxAttempts = Except.error e →
      retryFrom audit maxAttempts a =
        (none, some e, List.range' a (maxAttempts - a)) := by
    intro n
    induction n with
    | zero =>
      intro a hn h1 ha hfail hlast
      have hak : a = maxAttempts := by omega
      subst hak
      rw [retryFrom, if_neg (by omega), hlast]
      dsimp only
      rw [if_neg (by omega)]
      simp
    | succ n ihn =>
      intro a hn h1 ha hfail hlast
      have halt : a < maxAttempts := by omega
      obtain ⟨e2, he2⟩ := hfail a (Nat.le_refl a) halt
      rw [retryFrom, if_neg (by omega), he2]
      dsimp only
      rw [if_pos halt]
      rw [ihn (a + 1) (by omega) (by omega) (by omega)
        (fun j hj1 hj2 => hfail j (by omega) hj2) hlast]
      dsimp only
      rw [hn, List.range'_succ, show maxAttempts - (a + 1) = n by omega]
  intro a h1 ha hfail hlast
  exact main (maxAttempts - a) a rfl h1 ha hfail hlast

/-- C6 (claim): the retry loop of `runSingleAudit`. A successful attempt
stops retrying at once and its result is returned with no error; every
failed attempt other than the last is followed by a backoff of its attempt
number of time units — List.range' 1 (k-1) is [1, ..., k-1] — and no delay
follows the final attempt; an error is returned only when all maxAttempts
attempts fail, and it is the last attempt's error. -/
theorem runSingleAuditRetry_contract :
    (∀ (audit : Nat → Except String AuditResult) (maxAttempts k : Nat)
       (r : AuditResult),
      1 ≤ k → k ≤ maxAttempts →
      (∀ j, 1 ≤ j → j < k → ∃ e, audit j = Except.error e) →
      audit k = Except.ok r →
      runSingleAuditRetry audit maxAttempts =
        (some r, none, List.range' 1 (k - 1))) ∧
    (∀ (audit : Nat → Except String AuditResult) (maxAttempts : Nat) (e : String),
      1 ≤ maxAttempts →
      (∀ j, 1 ≤ j → j < maxAttempts → ∃ e2, audit j = Except.error e2) →
      audit maxAttempts = Except.error e →
      runSingleAuditRetry audit maxAttempts =
        (none, some e, List.range' 1 (maxAttempts - 1))) := by
  constructor
  · intro audit maxAttempts k r h1 hk hfail hok
    exact retryFrom_success audit maxAttempts r k 1 h1 hk hfail hok
  · intro audit maxAttempts e h1 hfail hlast
    exact retryFrom_all_fail audit maxAttempts e 1 (Nat.le_refl 1) h1 hfail hlast

/-- Witness for `runSingleAuditRetry_contract`: a scanner failing twice and
succeeding on the third attempt, with maxAttempts = 3, returns the
successful result, no error, and slept exactly after attempts 1 and 2 (1
then 2 units) — not after the final attempt. -/
theorem runSingleAuditRetry_contract_witness :
    runSingleAuditRetry exAuditOracle 3 =
      (some (exResult [exVuln "A" "high"]), none, [1, 2]) := by
  have h := runSingleAuditRetry_contract.1 exAuditOracle 3 3
    (exResult [exVuln "A" "high"]) (by omega) (by omega)
    (fun j hj1 hj2 => ⟨"scanner failed", by
      have : j = 1 ∨ j = 2 := by omega
      rcases this with h | h <;> rw [h] <;> rfl⟩)
    rfl
  simpa using h

/-- The counting pass of `UpdateCounts` never touches the total (it only
increments the four buckets). -/
theorem updateCountsFold_total (l : List Vulnerability) (acc : AuditResult) :
    (l.foldl
      (fun acc v =>
        if v.severity = SeverityCritical then { acc with criticalCount := acc.criticalCount + 1 }
        else if v.severity = SeverityHigh then { acc with highCount := acc.highCount + 1 }
        else if v.severity = SeverityModerate then { acc with moderateCount := acc.moderateCount + 1 }
        else if v.severity = SeverityLow then { acc with lowCount := acc.lowCount + 1 }
        else acc)
      acc).totalVulnerabilities = acc.totalVulnerabilities := by
  induction l generalizing acc with
  | nil => rfl
  | cons v rest ih =>
    rw [List.foldl_cons, ih]
    repeat' split
    all_goals rfl

/-- After `UpdateCounts` the stored total is the length of the list. -/
theorem UpdateCounts_total (a : AuditResult) :
    (AuditResult.UpdateCounts a).totalVulnerabilities
      = (a.vulnerabilities.length : Int) := by
  unfold AuditResult.UpdateCounts
  rw [updateCountsFold_total]

/-- A processed result (filter, then `UpdateCounts`) has vulnerabilities iff
the filtered list is nonempty. -/
theorem processAuditResult_has (r : AuditResult) (threshold : String) :
    (processAuditResult r threshold).HasVulnerabilities
      = !(FilterVulnerabilities r.vulnerabilities threshold).isEmpty := by
  unfold processAuditResult AuditResult.HasVulnerabilities
  rw [UpdateCounts_total]
  dsimp only
  cases h : FilterVulnerabilities r.vulnerabilities threshold
  · simp
  · simp

/-- C8 (claim): the exit decision of the run command. Code 2 whenever the
run returned an error; otherwise code 1 iff at least one audit result
retained a vulnerability at or above the severity threshold after
filtering; otherwise code 0. -/
theorem RunAudit_exit_contract (runErr : Option String)
    (results : List AuditResult) (threshold : String) :
    RunAuditExitCode runErr (applicationHasVulnerabilities results threshold) =
      (if runErr.isSome then 2
       else if results.any
           (fun r => !(FilterVulnerabilities r.vulnerabilities threshold).isEmpty)
         then 1
       else 0) := by
  have hv : applicationHasVulnerabilities results threshold =
      results.any
        (fun r => !(FilterVulnerabilities r.vulnerabilities threshold).isEmpty) := by
    unfold applicationHasVulnerabilities
    rw [List.any_map]
    congr 1
    funext r
    simp only [Function.comp]
    exact processAuditResult_has r threshold
  rw [hv]
  rfl
